import Mathlib

/-!
Verification of `zpool_influxdb.c` (richardelling/zfs-linux-tools).

The file shallowly embeds the program's core: the influxdb escaper
(`escape_string`), the scan-progress derivation and scan-line emission
(`print_scan_status`), the pool-line emission and per-pool error codes
(`print_stats`), and the pool-iteration driver (`zpool_iter`, an external
libzfs collaborator modelled from the spec).  Machine `uint64_t` values are
`Nat` with explicit reduction mod `2 ^ 64` at the operations where C's
modular arithmetic matters; `int64_t` intermediate values are `Int` produced
by a two's-complement reinterpretation (`toI64`).  `printf` decimal
rendering of unsigned integers is modelled by `decRepr`.
-/

namespace ZpoolInfluxdb

/-- The modulus `2 ^ 64` of C `uint64_t` arithmetic. -/
def U64 : Nat := 2 ^ 64

/-- C `uint64_t` subtraction `a - b` (wraps modulo `2 ^ 64`). -/
def sub64 (a b : Nat) : Nat := (a % U64 + (U64 - b % U64)) % U64

/-- Reinterpretation of a `uint64_t` bit pattern as `int64_t`
(two's complement), as happens when the C code assigns an unsigned
expression to the `int64_t elapsed` variable. -/
def toI64 (n : Nat) : Int :=
  if n % U64 < 2 ^ 63 then (n % U64 : Int) else (n % U64 : Int) - (U64 : Int)

/-- Decimal digits of `n` (most significant first), fuel-indexed so the
recursion is structural; `decDigitsAux n n` is total for every `n`.
Models the digit emission of `printf("%lu", n)`. -/
def decDigitsAux : Nat → Nat → List Char
  | 0, _ => []
  | fuel + 1, n =>
    if n = 0 then [] else decDigitsAux fuel (n / 10) ++ [Nat.digitChar (n % 10)]

/-- Decimal rendering of an unsigned integer, as `printf("%lu", n)`. -/
def decRepr (n : Nat) : String :=
  if n = 0 then "0" else String.mk (decDigitsAux n n)

/-- Numeric value denoted by a string of decimal digits. -/
def strVal (l : List Char) : Nat :=
  l.foldl (fun a c => 10 * a + (c.toNat - 48)) 0

/-- The influxdb special characters of `escape_string` (src lines 80-83). -/
def isSpecialChar (c : Char) : Bool :=
  c = ' ' || c = ',' || c = '=' || c = '\\'

/-- The copy loop of `escape_string` (src lines 78-88): a special character
is emitted with a preceding backslash, every other character verbatim. -/
def escapeChars : List Char → List Char
  | [] => []
  | c :: cs =>
    if isSpecialChar c then '\\' :: c :: escapeChars cs
    else c :: escapeChars cs

/-- The function `escape_string` (src lines 69-91). -/
def escape_string (s : String) : String := String.mk (escapeChars s.data)

/-! ### Scan statistics (`print_scan_status`, src lines 93-184) -/

/-- Number of scan states (`DSS_NUM_STATES` in `sys/fs/zfs.h`:
`DSS_NONE, DSS_SCANNING, DSS_FINISHED, DSS_CANCELED`). -/
def DSS_NUM_STATES : Nat := 4

/-- The constant `DSS_SCANNING` of `sys/fs/zfs.h`. -/
def DSS_SCANNING : Nat := 1

/-- The constant `DSS_FINISHED` of `sys/fs/zfs.h`. -/
def DSS_FINISHED : Nat := 2

/-- The constant `DSS_CANCELED` of `sys/fs/zfs.h`. -/
def DSS_CANCELED : Nat := 3

/-- Number of scan functions (`POOL_SCAN_FUNCS` in `sys/fs/zfs.h`:
`POOL_SCAN_NONE, POOL_SCAN_SCRUB, POOL_SCAN_RESILVER`); the optional
`POOL_SCAN_REBUILD` (src lines 119-123) is absent on the stock platform,
so the `#ifdef` branch is compiled out. -/
def POOL_SCAN_FUNCS : Nat := 3

/-- The state label array of `print_scan_status` (src line 99). -/
def stateLabels : List String := ["none", "scanning", "finished", "canceled"]

/-- The type `pool_scan_stat_t` (from `sys/fs/zfs.h`): the raw cumulative scan
counters consumed by `print_scan_status`.  All fields are `uint64_t`. -/
structure PoolScanStat where
  pss_func : Nat
  pss_state : Nat
  pss_start_time : Nat
  pss_end_time : Nat
  pss_to_examine : Nat
  pss_examined : Nat
  pss_to_process : Nat
  pss_processed : Nat
  pss_errors : Nat
  pss_pass_exam : Nat
  pss_pass_start : Nat
  pss_pass_scrub_pause : Nat
  pss_pass_scrub_spent_paused : Nat
  deriving DecidableEq, Repr

/-- Function label switch (src lines 109-126); the initial
`"unknown_function"` is always overwritten because the switch has a
default arm. -/
def funcLabelOf (ps : PoolScanStat) : String :=
  match ps.pss_func with
  | 0 => "none_requested"
  | 1 => "scrub"
  | 2 => "resilver"
  | _ => "scan"

/-- State label lookup `state[ps->pss_state]` (src lines 161, 179); the
default is never reached once the guard of src line 105 has passed. -/
def stateLabelOf (ps : PoolScanStat) : String :=
  stateLabels.getD ps.pss_state ("out_of_range")

/-- Line `examined = ps->pss_examined ? ps->pss_examined : 1` (src line 129). -/
def examinedOf (ps : PoolScanStat) : Nat :=
  if ps.pss_examined = 0 then 1 else ps.pss_examined

/-- Value `pct_done` (src lines 130-132): `0.0`, overwritten with
`100.0 * examined / ps->pss_to_examine` when `pss_to_examine > 0`.
The C `double` arithmetic is modelled exactly over `ℚ`. -/
def pctDoneOf (ps : PoolScanStat) : ℚ :=
  if 0 < ps.pss_to_examine then
    100 * (examinedOf ps : ℚ) / (ps.pss_to_examine : ℚ)
  else 0

/-- Value `paused_ts` (src line 135, `EZFS_SCRUB_PAUSED` branch). -/
def pausedTsOf (ps : PoolScanStat) : Nat := ps.pss_pass_scrub_pause

/-- Value `paused_time` (src line 136, `EZFS_SCRUB_PAUSED` branch). -/
def pausedTimeOf (ps : PoolScanStat) : Nat := ps.pss_pass_scrub_spent_paused

/-- Line `pass_exam = ps->pss_pass_exam ? ps->pss_pass_exam : 1`
(src lines 146, 153). -/
def passExamOf (ps : PoolScanStat) : Nat :=
  if ps.pss_pass_exam = 0 then 1 else ps.pss_pass_exam

/-- The raw `elapsed` before flooring (src lines 144, 151): unsigned
subtraction chains reinterpreted as `int64_t`.  In the scanning branch the
minuend is `time(NULL)` (`now`), otherwise `ps->pss_end_time`. -/
def elapsedRaw (ps : PoolScanStat) (now : Nat) : Int :=
  if ps.pss_state = DSS_SCANNING then
    toI64 (sub64 (sub64 now ps.pss_pass_start) (pausedTimeOf ps))
  else
    toI64 (sub64 (sub64 ps.pss_end_time ps.pss_pass_start) (pausedTimeOf ps))

/-- Line `elapsed = (elapsed > 0) ? elapsed : 1` (src lines 145, 152). -/
def elapsedOf (ps : PoolScanStat) (now : Nat) : Int :=
  if 0 < elapsedRaw ps now then elapsedRaw ps now else 1

/-- The per-branch rate (src lines 147-148, 154): `pass_exam / elapsed`,
floored to 1 inside the scanning branch only. -/
def rateBranch (ps : PoolScanStat) (now : Nat) : Nat :=
  if ps.pss_state = DSS_SCANNING then
    if 0 < passExamOf ps / (elapsedOf ps now).toNat then
      passExamOf ps / (elapsedOf ps now).toNat
    else 1
  else passExamOf ps / (elapsedOf ps now).toNat

/-- The final rate guard `rate = rate ? rate : 1` (src line 157). -/
def rateOf (ps : PoolScanStat) (now : Nat) : Nat :=
  if rateBranch ps now = 0 then 1 else rateBranch ps now

/-- Value `remaining_time` (src lines 149, 155): in the scanning branch the
`uint64_t` expression `ps->pss_to_examine - examined / rate` (the division
binds to `examined` alone), otherwise 0. -/
def remainingOf (ps : PoolScanStat) (now : Nat) : Nat :=
  if ps.pss_state = DSS_SCANNING then
    sub64 ps.pss_to_examine (examinedOf ps / rateBranch ps now)
  else 0

/-- The derived scan-progress record (spec §4.2 step 8): labels, derived
estimates, and pass-through of the raw counters used by field emission. -/
structure ScanProgress where
  func_label : String
  state_label : String
  pct_done : ℚ
  examined : Nat
  pass_examined : Nat
  pause_ts : Nat
  paused_t : Nat
  rate : Nat
  remaining_t : Nat
  end_ts : Nat
  errors : Nat
  processed : Nat
  start_ts : Nat
  to_examine : Nat
  to_process : Nat
  deriving DecidableEq, Repr

/-- The scan-progress derivation of `print_scan_status` (src lines
102-157): the guard of src lines 105-107 (absent record, state or
function out of enum range) yields no record, otherwise the derived
quantities are assembled. -/
def deriveScanProgress (ops : Option PoolScanStat) (now : Nat) :
    Option ScanProgress :=
  match ops with
  | none => none
  | some ps =>
    if DSS_NUM_STATES ≤ ps.pss_state ∨ POOL_SCAN_FUNCS ≤ ps.pss_func then
      none
    else
      some
        { func_label := funcLabelOf ps
          state_label := stateLabelOf ps
          pct_done := pctDoneOf ps
          examined := examinedOf ps
          pass_examined := passExamOf ps
          pause_ts := pausedTsOf ps
          paused_t := pausedTimeOf ps
          rate := rateOf ps now
          remaining_t := remainingOf ps now
          end_ts := ps.pss_end_time
          errors := ps.pss_errors
          processed := ps.pss_processed
          start_ts := ps.pss_start_time
          to_examine := ps.pss_to_examine
          to_process := ps.pss_to_process }

/-! ### Line rendering -/

/-- The constant `POOL_MEASUREMENT` (src line 42). -/
def POOL_MEASUREMENT : String := "zpool_stats"

/-- The constant `SCAN_MEASUREMENT` (src line 43). -/
def SCAN_MEASUREMENT : String := "zpool_scan_stats"

/-- Two decimal digits, zero padded. -/
def pad2 (n : Nat) : String := if n < 10 then "0" ++ decRepr n else decRepr n

/-- Rendering `printf("%.2f", q)` for the nonnegative values produced by this
program: `(200 * num + den) / (2 * den)` is `⌊100 * q + 1/2⌋`, the
nearest hundredth (half rounded up, where glibc rounds half to even; the
two agree off exact ties), printed with two decimals. -/
def fmtF2 (q : ℚ) : String :=
  decRepr (((200 * q.num.toNat + q.den) / (2 * q.den)) / 100) ++ "." ++
    pad2 (((200 * q.num.toNat + q.den) / (2 * q.den)) % 100)

/-- Rendering `printf("%lu000000000\n", time(NULL))` without the newline (src lines
183, 242): the seconds-resolution clock reading with nine literal zero
digits appended. -/
def timestampStr (t : Nat) : String := decRepr t ++ "000000000"

/-- The tag and field text of the scan metric line (src lines 160-182):
tag section, then the fields in the order of the `printf` arguments (the
trailing space of the C field format string is regrouped with the
timestamp in `scanLine`; the emitted bytes are identical). -/
def scanBody (pr : ScanProgress) (pool_name : String) : String :=
  SCAN_MEASUREMENT ++ ",function=" ++ pr.func_label ++ ",pool=" ++ pool_name ++
    ",state=" ++ pr.state_label ++ " " ++
    "end_ts=" ++ decRepr pr.end_ts ++ "i,errors=" ++ decRepr pr.errors ++
    "i,examined=" ++ decRepr pr.examined ++ "i,function=\"" ++ pr.func_label ++
    "\",pass_examined=" ++ decRepr pr.pass_examined ++ "i,pause_ts=" ++
    decRepr pr.pause_ts ++ "i,paused_t=" ++ decRepr pr.paused_t ++
    "i,pct_done=" ++ fmtF2 pr.pct_done ++ ",processed=" ++
    decRepr pr.processed ++ "i,rate=" ++ decRepr pr.rate ++
    "i,remaining_t=" ++ decRepr pr.remaining_t ++ "i,start_ts=" ++
    decRepr pr.start_ts ++ "i,state=\"" ++ pr.state_label ++
    "\",to_examine=" ++ decRepr pr.to_examine ++ "i,to_process=" ++
    decRepr pr.to_process ++ "i"

/-- The scan metric line (src lines 160-183): body, space, timestamp,
newline. -/
def scanLine (pr : ScanProgress) (pool_name : String) (now : Nat) : String :=
  scanBody pr pool_name ++ (" " ++ timestampStr now ++ "\n")

/-- The function `print_scan_status` (src lines 93-184): derive, then emit one line;
the guard cases emit nothing. -/
def print_scan_status (ops : Option PoolScanStat) (pool_name : String)
    (now : Nat) : Option String :=
  match deriveScanProgress ops now with
  | none => none
  | some pr => some (scanLine pr pool_name now)

/-! ### Pool statistics (`print_stats`, src lines 187-248) -/

/-- The `vdev_stat_t` counters consumed by `print_stats` (src lines
230-241), plus the pool state label.  `vs_state_name` stands for the
result of the external `zpool_state_to_name(vs->vs_state, vs->vs_aux)`
call; `vs_ops_read` is `vs_ops[ZIO_TYPE_READ]`, which the program never
reads. -/
structure VdevStat where
  vs_state_name : String
  vs_alloc : Nat
  vs_space : Nat
  vs_bytes_read : Nat
  vs_bytes_write : Nat
  vs_ops_read : Nat
  vs_ops_write : Nat
  vs_read_errors : Nat
  vs_write_errors : Nat
  vs_checksum_errors : Nat
  vs_fragmentation : Nat
  deriving DecidableEq, Repr

/-- The pool-line field list in emission order, key paired with its
rendered value, exactly as the `printf` of src lines 226-241 (each uint
value carries the literal `i` suffix, `state` is double-quoted, `free` is
the `uint64_t` difference `vs_space - vs_alloc`, and `read_ops` is fed
`vs->vs_bytes[ZIO_TYPE_READ]`, src line 236). -/
def poolFieldList (vs : VdevStat) : List (String × String) :=
  [("alloc", decRepr vs.vs_alloc ++ "i"),
   ("free", decRepr (sub64 vs.vs_space vs.vs_alloc) ++ "i"),
   ("size", decRepr vs.vs_space ++ "i"),
   ("state", "\"" ++ vs.vs_state_name ++ "\""),
   ("read_bytes", decRepr vs.vs_bytes_read ++ "i"),
   ("read_errors", decRepr vs.vs_read_errors ++ "i"),
   ("read_ops", decRepr vs.vs_bytes_read ++ "i"),
   ("write_bytes", decRepr vs.vs_bytes_write ++ "i"),
   ("write_errors", decRepr vs.vs_write_errors ++ "i"),
   ("write_ops", decRepr vs.vs_ops_write ++ "i"),
   ("checksum_errors", decRepr vs.vs_checksum_errors ++ "i"),
   ("fragmentation", decRepr vs.vs_fragmentation ++ "i")]

/-- The pool-line field text: `key=value` pairs joined by commas, byte
for byte the output of the `printf` at src lines 226-241. -/
def poolFieldsText (vs : VdevStat) : String :=
  String.intercalate (",") ((poolFieldList vs).map fun kv => kv.1 ++ "=" ++ kv.2)

/-- The tag and field text of the pool metric line (src lines 224-241):
measurement and tags, a space, the fields. -/
def poolBody (vs : VdevStat) (pool_name : String) : String :=
  POOL_MEASUREMENT ++ ",name=" ++ pool_name ++ ",state=" ++
    vs.vs_state_name ++ " " ++ poolFieldsText vs

/-- The pool metric line (src lines 224-242): body, space, timestamp,
newline. -/
def poolLine (vs : VdevStat) (pool_name : String) (now : Nat) : String :=
  poolBody vs pool_name ++ (" " ++ timestampStr now ++ "\n")

/-- The `ZPOOL_CONFIG_VDEV_TREE` nvlist as consumed by `print_stats`:
the `ZPOOL_CONFIG_VDEV_STATS` array (src lines 211-215) and the
`ZPOOL_CONFIG_SCAN_STATS` array (src lines 219-221), each possibly
absent. -/
structure VdevTreeNv where
  vdev_stats : Option VdevStat
  scan_stats : Option PoolScanStat
  deriving Repr

/-- One pool as seen by the `print_stats` callback: its name, whether
`zpool_refresh_stats` succeeds (src line 201), and the vdev-tree nvlist
of its configuration (absent when `nvlist_lookup_nvlist` fails, src
lines 206-209). -/
structure PoolHandle where
  zpool_name : String
  refresh_ok : Bool
  vdev_tree : Option VdevTreeNv
  deriving Repr

/-- The name-filter test of src line 198: skip unless the pool name
matches the optional argument (`strncmp` on names bounded by
`ZFS_MAX_DATASET_NAME_LEN` is string equality). -/
def filterSkip (data : Option String) (zhp : PoolHandle) : Bool :=
  match data with
  | some f => f ≠ zhp.zpool_name
  | none => false

/-- The function `print_stats` (src lines 187-248): the per-pool callback.  Returns
the C return code paired with the lines written for this pool, in order.
Codes: 0 filtered-out or success, 1 refresh failure (src line 202), 2
vdev-tree lookup failure (src line 208), 3 vdev-stats lookup failure
(src line 214), 4 the repeated vdev-tree lookup (src line 217, never
reached since the first lookup already succeeded).  The scan-stats lookup
failure is ignored (`ps` stays NULL) and only suppresses the scan line. -/
def print_stats (data : Option String) (now : Nat) (zhp : PoolHandle) :
    Nat × List String :=
  if filterSkip data zhp then (0, [])
  else if zhp.refresh_ok = false then (1, [])
  else
    match zhp.vdev_tree with
    | none => (2, [])
    | some nv =>
      match nv.vdev_stats with
      | none => (3, [])
      | some vs =>
        match zhp.vdev_tree with
        | none => (4, [])
        | some nvroot =>
          (0,
            [poolLine vs (escape_string zhp.zpool_name) now] ++
              match print_scan_status nvroot.scan_stats
                  (escape_string zhp.zpool_name) now with
              | some l => [l]
              | none => [])

/-- Modelled from the spec: the external libzfs collaborator
`zpool_iter` (src lines 255, 257; spec §4.4 and §7(b): "the reference
behavior stops at the first such failure").  It applies the callback to
each pool in order, stops at the first nonzero return code and returns
it; the returned line list is everything written before termination. -/
def zpool_iter (pools : List PoolHandle)
    (f : PoolHandle → Nat × List String) : Nat × List String :=
  match pools with
  | [] => (0, [])
  | p :: rest =>
    if (f p).1 ≠ 0 then ((f p).1, (f p).2)
    else ((zpool_iter rest f).1, (f p).2 ++ (zpool_iter rest f).2)

/-! ### Concrete inputs used by the witnesses -/

/-- An in-progress scrub: state `DSS_SCANNING`, 50 of 1000 bytes
examined, 100 bytes in the current pass over 10 seconds. -/
def exScanning : PoolScanStat :=
  { pss_func := 1
    pss_state := 1
    pss_start_time := 0
    pss_end_time := 0
    pss_to_examine := 1000
    pss_examined := 50
    pss_to_process := 0
    pss_processed := 0
    pss_errors := 0
    pss_pass_exam := 100
    pss_pass_start := 0
    pss_pass_scrub_pause := 0
    pss_pass_scrub_spent_paused := 0 }

/-- A finished scrub. -/
def exFinished : PoolScanStat :=
  { exScanning with pss_state := 2, pss_end_time := 20 }

/-- The fully degenerate record: every counter zero, state
`DSS_NONE`, function `POOL_SCAN_NONE`. -/
def exZero : PoolScanStat :=
  { pss_func := 0
    pss_state := 0
    pss_start_time := 0
    pss_end_time := 0
    pss_to_examine := 0
    pss_examined := 0
    pss_to_process := 0
    pss_processed := 0
    pss_errors := 0
    pss_pass_exam := 0
    pss_pass_start := 0
    pss_pass_scrub_pause := 0
    pss_pass_scrub_spent_paused := 0 }

/-- A degenerate in-progress record: scanning with all counters zero. -/
def exZeroScanning : PoolScanStat := { exZero with pss_state := 1 }

/-- A record with a state outside the known enum range. -/
def exBadState : PoolScanStat := { exZero with pss_state := 7 }

/-- The pool stats of the spec's formatting test: alloc 100, size 400. -/
def exVdev : VdevStat :=
  { vs_state_name := "ONLINE"
    vs_alloc := 100
    vs_space := 400
    vs_bytes_read := 0
    vs_bytes_write := 0
    vs_ops_read := 0
    vs_ops_write := 0
    vs_read_errors := 0
    vs_write_errors := 0
    vs_checksum_errors := 0
    vs_fragmentation := 0 }

/-- A healthy pool handle. -/
def exPoolOk : PoolHandle :=
  { zpool_name := "tank"
    refresh_ok := true
    vdev_tree := some { vdev_stats := some exVdev, scan_stats := none } }

/-- A pool whose stats refresh fails. -/
def exPoolRefreshFail : PoolHandle :=
  { zpool_name := "bad"
    refresh_ok := false
    vdev_tree := some { vdev_stats := some exVdev, scan_stats := none } }

/-! ### Helper lemmas -/

theorem u64_eq : U64 = 18446744073709551616 := by
  unfold U64
  norm_num

theorem sub64_eq (a b : Nat) (ha : a < U64) (hb : b ≤ a) :
    sub64 a b = a - b := by
  unfold sub64
  rw [u64_eq] at *
  have h1 : a % 18446744073709551616 = a := Nat.mod_eq_of_lt ha
  have h2 : b % 18446744073709551616 = b :=
    Nat.mod_eq_of_lt (lt_of_le_of_lt hb ha)
  rw [h1, h2]
  omega

theorem foldl_digits (l : List Char) (v : Nat) :
    l.foldl (fun a c => 10 * a + (c.toNat - 48)) v
      = v * 10 ^ l.length + strVal l := by
  induction l generalizing v with
  | nil => simp [strVal]
  | cons c cs ih =>
    have h1 := ih (10 * v + (c.toNat - 48))
    have h2 := ih (10 * 0 + (c.toNat - 48))
    have h3 : strVal (c :: cs)
        = (10 * 0 + (c.toNat - 48)) * 10 ^ cs.length + strVal cs := by
      simp only [strVal, List.foldl_cons] at h2 ⊢
      exact h2
    simp only [List.foldl_cons, List.length_cons]
    rw [h1, h3]
    ring

theorem strVal_append (l₁ l₂ : List Char) :
    strVal (l₁ ++ l₂) = strVal l₁ * 10 ^ l₂.length + strVal l₂ := by
  simp only [strVal, List.foldl_append]
  exact foldl_digits l₂ _

theorem digitChar_toNat (d : Nat) (h : d < 10) :
    (Nat.digitChar d).toNat = 48 + d := by
  interval_cases d <;> rfl

theorem strVal_decDigitsAux (fuel : Nat) :
    ∀ n : Nat, n ≤ fuel → strVal (decDigitsAux fuel n) = n := by
  induction fuel with
  | zero =>
    intro n hn
    interval_cases n
    simp [decDigitsAux, strVal]
  | succ f ih =>
    intro n hn
    by_cases h0 : n = 0
    · subst h0
      simp [decDigitsAux, strVal]
    · have hlt : n / 10 < n := Nat.div_lt_self (Nat.pos_of_ne_zero h0) (by norm_num)
      have hrec : strVal (decDigitsAux f (n / 10)) = n / 10 := ih _ (by omega)
      have hd : (Nat.digitChar (n % 10)).toNat = 48 + n % 10 :=
        digitChar_toNat _ (Nat.mod_lt _ (by norm_num))
      have h1 : strVal [Nat.digitChar (n % 10)] = n % 10 := by
        simp [strVal, hd]
      rw [decDigitsAux, if_neg h0, strVal_append, hrec, h1]
      simp only [List.length_singleton, pow_one]
      omega

theorem strVal_decRepr (n : Nat) : strVal (decRepr n).data = n := by
  by_cases h : n = 0
  · subst h
    rfl
  · simp only [decRepr, if_neg h]
    exact strVal_decDigitsAux n n le_rfl

theorem one_le_elapsedOf (ps : PoolScanStat) (now : Nat) :
    1 ≤ elapsedOf ps now := by
  unfold elapsedOf
  split <;> omega

theorem one_le_rateOf (ps : PoolScanStat) (now : Nat) :
    1 ≤ rateOf ps now := by
  unfold rateOf
  split <;> omega

theorem one_le_rateBranch_scanning (ps : PoolScanStat) (now : Nat)
    (h : ps.pss_state = DSS_SCANNING) : 1 ≤ rateBranch ps now := by
  unfold rateBranch
  rw [if_pos h]
  split <;> omega

theorem rateOf_eq_rateBranch_scanning (ps : PoolScanStat) (now : Nat)
    (h : ps.pss_state = DSS_SCANNING) : rateOf ps now = rateBranch ps now := by
  have h1 := one_le_rateBranch_scanning ps now h
  unfold rateOf
  rw [if_neg (by omega)]

theorem derive_some (ps : PoolScanStat) (now : Nat)
    (hs : ps.pss_state < DSS_NUM_STATES) (hf : ps.pss_func < POOL_SCAN_FUNCS) :
    deriveScanProgress (some ps) now = some
      { func_label := funcLabelOf ps
        state_label := stateLabelOf ps
        pct_done := pctDoneOf ps
        examined := examinedOf ps
        pass_examined := passExamOf ps
        pause_ts := pausedTsOf ps
        paused_t := pausedTimeOf ps
        rate := rateOf ps now
        remaining_t := remainingOf ps now
        end_ts := ps.pss_end_time
        errors := ps.pss_errors
        processed := ps.pss_processed
        start_ts := ps.pss_start_time
        to_examine := ps.pss_to_examine
        to_process := ps.pss_to_process } := by
  have hcond : ¬(DSS_NUM_STATES ≤ ps.pss_state ∨ POOL_SCAN_FUNCS ≤ ps.pss_func) := by
    omega
  simp only [deriveScanProgress]
  rw [if_neg hcond]

theorem escapeChars_id (s : List Char) (h : ∀ c ∈ s, isSpecialChar c = false) :
    escapeChars s = s := by
  induction s with
  | nil => rfl
  | cons c cs ih =>
    have hc : isSpecialChar c = false := h c (List.mem_cons_self c cs)
    have ih' := ih fun x hx => h x (List.mem_cons_of_mem c hx)
    simp [escapeChars, hc, ih']

theorem escapeChars_flatMap (s : List Char) :
    escapeChars s
      = s.flatMap fun c => if isSpecialChar c then ['\\', c] else [c] := by
  induction s with
  | nil => rfl
  | cons c cs ih => cases hcb : isSpecialChar c <;> simp [escapeChars, hcb, ih]

theorem escapeChars_count (s : List Char) :
    (escapeChars s).count '\\' = s.count '\\' + s.countP isSpecialChar := by
  induction s with
  | nil => rfl
  | cons c cs ih =>
    cases hcb : isSpecialChar c
    · have hne : ¬(c = '\\') := by
        intro h
        subst h
        simp [isSpecialChar] at hcb
      simp [escapeChars, hcb, List.count_cons, ih, hne]
    · simp [escapeChars, hcb, List.count_cons, ih]
      omega

/-! ### The claims -/

/-- C1: for an in-progress scan the remaining-time estimate is
`bytesToExamine - (examined / rate)` in `uint64_t` arithmetic, with the
division binding to `examined` alone (`examined` floored to 1 when zero,
`rate` at least 1); for a finished or canceled scan it is exactly 0. -/
theorem scan_remaining_time_formula (ps : PoolScanStat) (now : Nat)
    (hf : ps.pss_func < POOL_SCAN_FUNCS) :
    (ps.pss_state = DSS_SCANNING →
      1 ≤ rateOf ps now ∧
      Option.map ScanProgress.rate (deriveScanProgress (some ps) now)
        = some (rateOf ps now) ∧
      Option.map ScanProgress.remaining_t (deriveScanProgress (some ps) now)
        = some (sub64 ps.pss_to_examine
            ((if ps.pss_examined = 0 then 1 else ps.pss_examined) /
              rateOf ps now))) ∧
    (ps.pss_state = DSS_FINISHED ∨ ps.pss_state = DSS_CANCELED →
      Option.map ScanProgress.remaining_t (deriveScanProgress (some ps) now)
        = some 0) := by
  constructor
  · intro h
    have hs : ps.pss_state < DSS_NUM_STATES := by rw [h]; decide
    rw [derive_some ps now hs hf]
    refine ⟨one_le_rateOf ps now, rfl, ?_⟩
    show some (remainingOf ps now) = _
    rw [remainingOf, if_pos h, rateOf_eq_rateBranch_scanning ps now h]
    rfl
  · intro h
    have hs : ps.pss_state < DSS_NUM_STATES := by
      rcases h with h | h <;> rw [h] <;> decide
    have hne : ¬(ps.pss_state = DSS_SCANNING) := by
      rcases h with h | h <;> rw [h] <;> decide
    rw [derive_some ps now hs hf]
    show some (remainingOf ps now) = some 0
    rw [remainingOf, if_neg hne]

/-- C1 witness: for the concrete in-progress scrub (1000 to examine, 50
examined, rate 10) the remainder is `1000 - 50 / 10 = 995` — not
`(1000 - 50) / 10 = 95` — and for the finished record it is 0. -/
theorem scan_remaining_time_formula_witness :
    Option.map ScanProgress.remaining_t (deriveScanProgress (some exScanning) 10)
      = some 995 ∧
    Option.map ScanProgress.remaining_t (deriveScanProgress (some exFinished) 10)
      = some 0 := by
  constructor
  · have h3 := ((scan_remaining_time_formula exScanning 10 (by decide)).1
      (by decide)).2.2
    rw [h3]
    decide
  · exact (scan_remaining_time_formula exFinished 10 (by decide)).2
      (Or.inl (by decide))

/-- C2: on every input passing the enum guard, the calculator faults on no
division: `examined` and `pass_exam` are floored to 1 when zero, `elapsed`
to 1 when non-positive, and the emitted rate is at least 1. -/
theorem scan_no_division_by_zero (ps : PoolScanStat) (now : Nat)
    (hs : ps.pss_state < DSS_NUM_STATES) (hf : ps.pss_func < POOL_SCAN_FUNCS) :
    deriveScanProgress (some ps) now ≠ none ∧
    examinedOf ps = max 1 ps.pss_examined ∧
    passExamOf ps = max 1 ps.pss_pass_exam ∧
    1 ≤ elapsedOf ps now ∧
    1 ≤ rateOf ps now ∧
    Option.map ScanProgress.rate (deriveScanProgress (some ps) now)
      = some (rateOf ps now) := by
  rw [derive_some ps now hs hf]
  refine ⟨by simp, ?_, ?_, one_le_elapsedOf ps now, one_le_rateOf ps now, rfl⟩
  · rw [examinedOf]
    split <;> omega
  · rw [passExamOf]
    split <;> omega

/-- C2 witness: the all-zero in-progress record (to-examine, pass-examined,
bytes-examined and elapsed all zero) still yields a defined output with
rate 1. -/
theorem scan_no_division_by_zero_witness :
    deriveScanProgress (some exZeroScanning) 0 ≠ none ∧
    examinedOf exZeroScanning = max 1 exZeroScanning.pss_examined ∧
    passExamOf exZeroScanning = max 1 exZeroScanning.pss_pass_exam ∧
    1 ≤ elapsedOf exZeroScanning 0 ∧
    1 ≤ rateOf exZeroScanning 0 ∧
    Option.map ScanProgress.rate (deriveScanProgress (some exZeroScanning) 0)
      = some (rateOf exZeroScanning 0) :=
  scan_no_division_by_zero exZeroScanning 0 (by decide) (by decide)

/-- C3: an absent scan record, or one whose state or function lies outside
the known enum ranges, derives no progress record and emits no line. -/
theorem invalid_scan_skip (ops : Option PoolScanStat) (pool : String)
    (now : Nat)
    (h : ops = none ∨ ∃ ps, ops = some ps ∧
      (DSS_NUM_STATES ≤ ps.pss_state ∨ POOL_SCAN_FUNCS ≤ ps.pss_func)) :
    deriveScanProgress ops now = none ∧
    print_scan_status ops pool now = none := by
  have hd : deriveScanProgress ops now = none := by
    rcases h with h | ⟨ps, rfl, hbad⟩
    · subst h
      rfl
    · simp only [deriveScanProgress]
      rw [if_pos hbad]
  refine ⟨hd, ?_⟩
  simp only [print_scan_status, hd]

/-- C3 witness: a record with state 7 (outside the 4 known states) is
silently skipped. -/
theorem invalid_scan_skip_witness :
    deriveScanProgress (some exBadState) 0 = none ∧
    print_scan_status (some exBadState) ("tank") 0 = none :=
  invalid_scan_skip (some exBadState) ("tank") 0
    (Or.inr ⟨exBadState, rfl, by decide⟩)

/-- C4: a string free of space, comma, equals and backslash escapes to
itself; in general each character maps to itself prefixed by one added
backslash exactly when special, so the output backslash count is the input
backslash count plus the input special-character count. -/
theorem escape_string_spec (s : List Char) :
    ((∀ c ∈ s, isSpecialChar c = false) →
      escape_string (String.mk s) = String.mk s) ∧
    escapeChars s
      = (s.flatMap fun c => if isSpecialChar c then ['\\', c] else [c]) ∧
    (escapeChars s).count '\\' = s.count '\\' + s.countP isSpecialChar := by
  refine ⟨?_, escapeChars_flatMap s, escapeChars_count s⟩
  intro h
  show String.mk (escapeChars s) = String.mk s
  exact congrArg String.mk (escapeChars_id s h)

/-- C4 witness: `"a.b"` contains no special character and escapes to
itself. -/
theorem escape_string_spec_witness :
    escape_string (String.mk (("a.b").data)) = String.mk (("a.b").data) :=
  (escape_string_spec (("a.b").data)).1 (by decide)

/-- C5: the `read_ops` field of every pool line carries the read-bytes
counter — it always equals the `read_bytes` field, the read-operations
counter `vs_ops_read` is never consulted (the line is invariant under it)
— while `write_ops` carries the write-operations counter. -/
theorem read_ops_reuses_read_bytes (vs : VdevStat) :
    (poolFieldList vs).lookup ("read_ops")
      = (poolFieldList vs).lookup ("read_bytes") ∧
    (poolFieldList vs).lookup ("read_ops")
      = some (decRepr vs.vs_bytes_read ++ "i") ∧
    (poolFieldList vs).lookup ("write_ops")
      = some (decRepr vs.vs_ops_write ++ "i") ∧
    ∀ (n : Nat) (name : String) (now : Nat),
      poolLine { vs with vs_ops_read := n } name now = poolLine vs name now :=
  ⟨rfl, rfl, rfl, fun _ _ _ => rfl⟩

set_option maxRecDepth 8192 in
/-- C6: the pool line's `free` field is `size - alloc`, the field keys
appear in the exact emission order, and the alloc=100 / size=400 example
renders with field text starting `alloc=100i,free=300i,size=400i`. -/
theorem pool_free_and_field_order (vs : VdevStat)
    (ha : vs.vs_space < U64) (hb : vs.vs_alloc ≤ vs.vs_space) :
    (poolFieldList vs).map Prod.fst
      = ["alloc", "free", "size", "state", "read_bytes", "read_errors",
         "read_ops", "write_bytes", "write_errors", "write_ops",
         "checksum_errors", "fragmentation"] ∧
    (poolFieldList vs).lookup ("free")
      = some (decRepr (vs.vs_space - vs.vs_alloc) ++ "i") ∧
    ("alloc=100i,free=300i,size=400i").data <+: (poolFieldsText exVdev).data ∧
    poolFieldsText exVdev
      = "alloc=100i,free=300i,size=400i,state=\"ONLINE\",read_bytes=0i,read_errors=0i,read_ops=0i,write_bytes=0i,write_errors=0i,write_ops=0i,checksum_errors=0i,fragmentation=0i" := by
  refine ⟨rfl, ?_, by decide, by decide⟩
  show some (decRepr (sub64 vs.vs_space vs.vs_alloc) ++ "i") = _
  rw [sub64_eq _ _ ha hb]

set_option maxRecDepth 8192 in
/-- C6 witness: the in-range example pool (alloc 100, size 400). -/
theorem pool_free_and_field_order_witness :
    (poolFieldList exVdev).map Prod.fst
      = ["alloc", "free", "size", "state", "read_bytes", "read_errors",
         "read_ops", "write_bytes", "write_errors", "write_ops",
         "checksum_errors", "fragmentation"] ∧
    (poolFieldList exVdev).lookup ("free")
      = some (decRepr (exVdev.vs_space - exVdev.vs_alloc) ++ "i") ∧
    ("alloc=100i,free=300i,size=400i").data <+: (poolFieldsText exVdev).data ∧
    poolFieldsText exVdev
      = "alloc=100i,free=300i,size=400i,state=\"ONLINE\",read_bytes=0i,read_errors=0i,read_ops=0i,write_bytes=0i,write_errors=0i,write_ops=0i,checksum_errors=0i,fragmentation=0i" :=
  pool_free_and_field_order exVdev (by decide) (by decide)

/-- C7: the percent-done is 0 when there is nothing to examine, otherwise
`100 * examined / bytesToExamine` with `examined` floored to 1 when the
raw counter is zero; the all-zero record renders as `0.00`. -/
theorem pct_done_spec (ps : PoolScanStat) (now : Nat)
    (hs : ps.pss_state < DSS_NUM_STATES) (hf : ps.pss_func < POOL_SCAN_FUNCS) :
    (ps.pss_to_examine = 0 → pctDoneOf ps = 0) ∧
    (0 < ps.pss_to_examine →
      pctDoneOf ps
        = 100 * (((if ps.pss_examined = 0 then 1 else ps.pss_examined) : Nat) : ℚ)
            / (ps.pss_to_examine : ℚ)) ∧
    Option.map ScanProgress.pct_done (deriveScanProgress (some ps) now)
      = some (pctDoneOf ps) ∧
    fmtF2 (pctDoneOf exZero) = "0.00" := by
  refine ⟨?_, ?_, ?_, ?_⟩
  · intro h
    rw [pctDoneOf, if_neg (by omega)]
  · intro h
    rw [pctDoneOf, if_pos h]
    rfl
  · rw [derive_some ps now hs hf]
    rfl
  · decide

/-- C7 witness: the record with `examined = 0` and `to_examine = 0` has
percent-done 0, carried into the derived record and rendered `0.00`. -/
theorem pct_done_spec_witness :
    pctDoneOf exZero = 0 ∧
    Option.map ScanProgress.pct_done (deriveScanProgress (some exZero) 0)
      = some (pctDoneOf exZero) ∧
    fmtF2 (pctDoneOf exZero) = "0.00" := by
  have h := pct_done_spec exZero 0 (by decide) (by decide)
  exact ⟨h.1 rfl, h.2.2.1, h.2.2.2⟩

/-- C8: the timestamp string appended to every line is the seconds clock
reading with nine literal zero digits, so its numeric value is
`t * 10 ^ 9`, always a multiple of `10 ^ 9`; every pool line and every
scan line rendered at clock second `t` ends with that same timestamp
suffix. -/
theorem timestamp_seconds_times_1e9 (t : Nat) :
    strVal (timestampStr t).data = t * 10 ^ 9 ∧
    10 ^ 9 ∣ strVal (timestampStr t).data ∧
    ∀ (vs : VdevStat) (pr : ScanProgress) (name : String),
      (" " ++ timestampStr t ++ "\n").data <:+ (poolLine vs name t).data ∧
      (" " ++ timestampStr t ++ "\n").data <:+ (scanLine pr name t).data := by
  have h : strVal (timestampStr t).data = t * 10 ^ 9 := by
    have h1 : (("000000000") : String).data.length = 9 := rfl
    have h2 : strVal ((("000000000") : String).data) = 0 := rfl
    rw [timestampStr, String.data_append, strVal_append, strVal_decRepr, h1, h2]
    ring
  refine ⟨h, ⟨t, by rw [h]; ring⟩, ?_⟩
  intro vs pr name
  constructor
  · rw [poolLine, String.data_append]
    exact List.suffix_append _ _
  · rw [scanLine, String.data_append]
    exact List.suffix_append _ _

theorem zpool_iter_stops (f : PoolHandle → Nat × List String) :
    ∀ (ps : List PoolHandle) (p : PoolHandle) (qs : List PoolHandle),
      (∀ q ∈ ps, (f q).1 = 0) → (f p).1 ≠ 0 →
      zpool_iter (ps ++ p :: qs) f
        = ((f p).1, (ps.flatMap fun q => (f q).2) ++ (f p).2) := by
  intro ps
  induction ps with
  | nil =>
    intro p qs _ hp
    simp only [List.nil_append, zpool_iter, List.flatMap_nil]
    rw [if_pos hp]
  | cons q ps ih =>
    intro p qs h hp
    have hq : (f q).1 = 0 := h q (List.mem_cons_self q ps)
    simp only [List.cons_append, zpool_iter]
    rw [if_neg fun hne => hne hq, List.append_eq]
    rw [ih p qs (fun x hx => h x (List.mem_cons_of_mem q hx)) hp]
    simp [List.append_assoc]

/-- C9: with the name filter passing, a refresh failure returns code 1, a
missing vdev tree code 2, missing vdev stats code 3 — each distinct,
nonzero, and with no line written for that pool — while a pool with all
structures present returns 0; the iteration driver stops at the first
nonzero code and surfaces it, so no later pool is emitted. -/
theorem print_stats_error_codes (data : Option String) (now : Nat) :
    (∀ zhp : PoolHandle, filterSkip data zhp = false →
      zhp.refresh_ok = false → print_stats data now zhp = (1, [])) ∧
    (∀ zhp : PoolHandle, filterSkip data zhp = false →
      zhp.refresh_ok = true → zhp.vdev_tree = none →
      print_stats data now zhp = (2, [])) ∧
    (∀ (zhp : PoolHandle) (nv : VdevTreeNv), filterSkip data zhp = false →
      zhp.refresh_ok = true → zhp.vdev_tree = some nv →
      nv.vdev_stats = none → print_stats data now zhp = (3, [])) ∧
    (∀ (zhp : PoolHandle) (nv : VdevTreeNv) (vs : VdevStat),
      filterSkip data zhp = false → zhp.refresh_ok = true →
      zhp.vdev_tree = some nv → nv.vdev_stats = some vs →
      (print_stats data now zhp).1 = 0) ∧
    (∀ (ps qs : List PoolHandle) (p : PoolHandle),
      (∀ q ∈ ps, (print_stats data now q).1 = 0) →
      (print_stats data now p).1 ≠ 0 →
      zpool_iter (ps ++ p :: qs) (print_stats data now)
        = ((print_stats data now p).1,
            (ps.flatMap fun q => (print_stats data now q).2)
              ++ (print_stats data now p).2)) := by
  refine ⟨?_, ?_, ?_, ?_, ?_⟩
  · intro zhp h1 h2
    simp [print_stats, h1, h2]
  · intro zhp h1 h2 h3
    simp [print_stats, h1, h2, h3]
  · intro zhp nv h1 h2 h3 h4
    simp [print_stats, h1, h2, h3, h4]
  · intro zhp nv vs h1 h2 h3 h4
    simp [print_stats, h1, h2, h3, h4]
  · intro ps qs p h hp
    exact zpool_iter_stops (print_stats data now) ps p qs h hp

/-- C9 witness: a healthy pool followed by a pool whose refresh fails and
another healthy pool — the failing pool returns `(1, [])` and iteration
stops there, dropping the third pool. -/
theorem print_stats_error_codes_witness :
    print_stats none 0 exPoolRefreshFail = (1, []) ∧
    (print_stats none 0 exPoolOk).1 = 0 ∧
    zpool_iter ([exPoolOk] ++ exPoolRefreshFail :: [exPoolOk])
        (print_stats none 0)
      = ((print_stats none 0 exPoolRefreshFail).1,
          (([exPoolOk]).flatMap fun q => (print_stats none 0 q).2)
            ++ (print_stats none 0 exPoolRefreshFail).2) := by
  have h := print_stats_error_codes none 0
  refine ⟨h.1 exPoolRefreshFail (by decide) (by decide), ?_, ?_⟩
  · exact h.2.2.2.1 exPoolOk { vdev_stats := some exVdev, scan_stats := none }
      exVdev (by decide) (by decide) rfl rfl
  · exact h.2.2.2.2 [exPoolOk] [exPoolOk] exPoolRefreshFail (by decide)
      (by decide)

/-- C10: whenever a scan line is emitted the scan state strictly precedes
the length of the 4-entry label array, so the label lookup (used for both
the tag and the quoted field) is in range and never falls back to a
default. -/
theorem scan_state_index_bounded (ps : PoolScanStat) (name : String)
    (now : Nat) (h : print_scan_status (some ps) name now ≠ none) :
    ps.pss_state < stateLabels.length ∧
    stateLabels[ps.pss_state]? = some (stateLabelOf ps) ∧
    stateLabelOf ps ∈ stateLabels := by
  have hlt : ps.pss_state < DSS_NUM_STATES := by
    by_contra hge
    push_neg at hge
    exact h (by
      simp only [print_scan_status, deriveScanProgress]
      rw [if_pos (Or.inl hge)])
  have hlt' : ps.pss_state < stateLabels.length := hlt
  refine ⟨hlt', ?_, ?_⟩
  · rw [List.getElem?_eq_getElem hlt', stateLabelOf,
      List.getD_eq_getElem _ _ hlt']
  · rw [stateLabelOf, List.getD_eq_getElem _ _ hlt']
    exact List.getElem_mem hlt'

/-- C10 witness: the emitted line for the all-zero record indexes state 0
of the 4-entry array. -/
theorem scan_state_index_bounded_witness :
    exZero.pss_state < stateLabels.length ∧
    stateLabels[exZero.pss_state]? = some (stateLabelOf exZero) ∧
    stateLabelOf exZero ∈ stateLabels :=
  scan_state_index_bounded exZero ("tank") 0 (by decide)

end ZpoolInfluxdb
